import Mathlib

/-!
Shallow embedding of the carbon-credit dashboard's data pipeline
(`src/lib/types.ts`, `src/lib/data.ts`, `src/hooks/use-pagination.ts`,
`src/components/certificate/download-certificate.tsx`).

JavaScript strings are modelled as Lean `String` (comparison and search run
over the underlying `List Char`), numbers used as years/indices as `Int`/`Nat`,
and JSON numbers (for the zod validation layer) as `Rat`.  JavaScript's
in-place `Array.prototype.sort` is modelled with a stable comparison sort
(`List.insertionSort`; ES2019 requires the sort to be stable, and all stable
sorts agree for a consistent comparator) plus explicit alias tracking where
mutation is observable.
-/

namespace Dashboard

/-- Credit status, `z.enum(["Active", "Retired"])` from `types.ts`. -/
inductive Status where
  | Active : Status
  | Retired : Status
deriving DecidableEq, Repr

/-- The string value a `Status` has in JavaScript. -/
def statusString : Status → String
  | Status.Active => "Active"
  | Status.Retired => "Retired"

/-- The `Credit` record of `types.ts` (vintage is a JS number used as a year;
modelled as `Int`). -/
structure Credit where
  unic_id : String
  project_name : String
  vintage : Int
  status : Status
deriving DecidableEq, Repr

/-- The `CreditWithMetadata` record of `types.ts`. -/
structure CreditWithMetadata where
  unic_id : String
  project_name : String
  vintage : Int
  status : Status
  searchableText : String
  displayName : String
  vintageDisplay : String
deriving DecidableEq, Repr

/-! ### Character-list primitives modelling JS string operations -/

/-- Lexicographic strict comparison of char lists by code point, the order JS
`<` uses on strings (code-unit order; identical on the characters involved
here). -/
def charsLt : List Char → List Char → Bool
  | [], [] => false
  | [], _ :: _ => true
  | _ :: _, [] => false
  | a :: as, b :: bs =>
      if a.toNat < b.toNat then true
      else if b.toNat < a.toNat then false
      else charsLt as bs

/-- Whether `needle` is a prefix of `hay`, on char lists. -/
def charsPrefixOf : List Char → List Char → Bool
  | [], _ => true
  | _ :: _, [] => false
  | a :: as, b :: bs => a == b && charsPrefixOf as bs

/-- JS `hay.includes(needle)`: `needle` occurs contiguously in `hay`. -/
def charsIncludes : List Char → List Char → Bool
  | [], needle => charsPrefixOf needle []
  | hay@(_ :: rest), needle => charsPrefixOf needle hay || charsIncludes rest needle

/-- JS string comparison `a < b`, via the underlying characters. -/
def jsStrLt (a b : String) : Bool :=
  charsLt a.data b.data

/-- JS `s.includes(t)`. -/
def jsIncludes (s t : String) : Bool :=
  charsIncludes s.data t.data

/-- JS `s.toLowerCase()`: lowercase every character. -/
def jsToLower (s : String) : String :=
  String.mk (s.data.map Char.toLower)

/-- JS `s.trim()`: strip leading and trailing whitespace. -/
def jsTrim (s : String) : String :=
  String.mk (((s.data.dropWhile Char.isWhitespace).reverse.dropWhile
    Char.isWhitespace).reverse)

/-! ### `data.ts`: transformCreditsWithMetadata -/

/-- Model of `transformCreditsWithMetadata` from `data.ts` (lines 75–82): attaches the
precomputed lowercase searchable text and display fields. -/
def transformCreditsWithMetadata (credits : List Credit) : List CreditWithMetadata :=
  credits.map fun credit =>
    { unic_id := credit.unic_id
      project_name := credit.project_name
      vintage := credit.vintage
      status := credit.status
      searchableText :=
        jsToLower (credit.project_name ++ " " ++ credit.unic_id ++ " " ++
          toString credit.vintage ++ " " ++ statusString credit.status)
      displayName := credit.project_name
      vintageDisplay := toString credit.vintage }

/-! ### `data.ts`: calculateDashboardStats -/

/-- Vintage range record, `{ min, max }` in `types.ts`. -/
structure VintageRange where
  min : Int
  max : Int
deriving DecidableEq, Repr

/-- The `DashboardStats` record of `types.ts`. -/
structure DashboardStats where
  totalCredits : Nat
  activeCredits : Nat
  retiredCredits : Nat
  vintageRange : VintageRange
  availableVintages : List Int
deriving DecidableEq, Repr

/-- Insertion into a JS `Set`, carrying the set of elements already seen. -/
def setDedupAux (seen : List Int) : List Int → List Int
  | [] => []
  | x :: xs =>
      if x ∈ seen then setDedupAux seen xs
      else x :: setDedupAux (x :: seen) xs

/-- JS `[...new Set(xs)]`: deduplicate keeping the first occurrence of each
element, in encounter order. -/
def setDedup (l : List Int) : List Int :=
  setDedupAux [] l

/-- Model of `calculateDashboardStats` from `data.ts` (lines 87–106). -/
def calculateDashboardStats (credits : List Credit) : DashboardStats :=
  let totalCredits := credits.length
  let activeCredits := (credits.filter (fun c => c.status == Status.Active)).length
  let retiredCredits := (credits.filter (fun c => c.status == Status.Retired)).length
  let vintages := credits.map (fun c => c.vintage)
  let uniqueVintages :=
    List.insertionSort (fun a b : Int => b ≤ a) (setDedup vintages)
  let vintageRange :=
    match vintages with
    | [] => { min := 0, max := 0 : VintageRange }
    | v :: vs => { min := vs.foldl min v, max := vs.foldl max v : VintageRange }
  { totalCredits := totalCredits
    activeCredits := activeCredits
    retiredCredits := retiredCredits
    vintageRange := vintageRange
    availableVintages := uniqueVintages }

/-! ### `data.ts`: searchAndFilterCredits -/

/-- The status filter argument: a concrete status or the all marker. -/
inductive StatusFilter where
  | all : StatusFilter
  | status (s : Status) : StatusFilter
deriving DecidableEq, Repr

/-- The vintage filter argument: a concrete vintage or the all marker. -/
inductive VintageFilter where
  | all : VintageFilter
  | vintage (v : Int) : VintageFilter
deriving DecidableEq, Repr

/-- The `sortBy` argument of `searchAndFilterCredits`. -/
inductive SortBy where
  | by_project_name : SortBy
  | by_vintage : SortBy
  | by_status : SortBy
deriving DecidableEq, Repr

/-- The `sortOrder` argument of `searchAndFilterCredits`. -/
inductive SortOrder where
  | asc : SortOrder
  | desc : SortOrder
deriving DecidableEq, Repr

/-- Strict comparison `aValue < bValue` of the comparator in
`searchAndFilterCredits` (lines 140–164): the key is the lowercased project
name, the vintage, or the status string. -/
def keyLt (sortBy : SortBy) (a b : CreditWithMetadata) : Bool :=
  match sortBy with
  | SortBy.by_project_name =>
      jsStrLt (jsToLower a.project_name) (jsToLower b.project_name)
  | SortBy.by_vintage => decide (a.vintage < b.vintage)
  | SortBy.by_status => jsStrLt (statusString a.status) (statusString b.status)

/-- Truth of `comparator(a, b) ≤ 0` for the comparator passed to `.sort`: for `asc` the
comparator is positive exactly when `bValue < aValue`, for `desc` exactly when
`aValue < bValue`. -/
def sortLe (sortBy : SortBy) (sortOrder : SortOrder) (a b : CreditWithMetadata) : Bool :=
  match sortOrder with
  | SortOrder.asc => !(keyLt sortBy b a)
  | SortOrder.desc => !(keyLt sortBy a b)

/-- Model of `searchAndFilterCredits` from `data.ts` (lines 111–168), as a function of
the argument values to the returned array's value.  Each active filter is a
`.filter` pass; the final `.sort` is a stable sort by the comparator. -/
def searchAndFilterCredits (credits : List CreditWithMetadata) (query : String)
    (statusFilter : StatusFilter) (vintageFilter : VintageFilter)
    (sortBy : SortBy) (sortOrder : SortOrder) : List CreditWithMetadata :=
  let filtered := credits
  let filtered :=
    if jsTrim query ≠ "" then
      let searchTerm := jsTrim (jsToLower query)
      filtered.filter (fun credit => jsIncludes credit.searchableText searchTerm)
    else filtered
  let filtered :=
    match statusFilter with
    | StatusFilter.all => filtered
    | StatusFilter.status s => filtered.filter (fun credit => credit.status == s)
  let filtered :=
    match vintageFilter with
    | VintageFilter.all => filtered
    | VintageFilter.vintage v => filtered.filter (fun credit => credit.vintage == v)
  List.insertionSort (fun a b => sortLe sortBy sortOrder a b = true) filtered

/-- Model of `searchAndFilterCredits` with the caller's array state made explicit:
`filtered` starts as an alias of `credits`, each `.filter` allocates a fresh
array (breaking the alias), and the final `.sort` mutates `filtered` in
place.  Returns `(returned array, contents of the input array after the
call)`. -/
def searchAndFilterCreditsWithInput (credits : List CreditWithMetadata) (query : String)
    (statusFilter : StatusFilter) (vintageFilter : VintageFilter)
    (sortBy : SortBy) (sortOrder : SortOrder) :
    List CreditWithMetadata × List CreditWithMetadata :=
  let state := (credits, true)
  let state :=
    if jsTrim query ≠ "" then
      let searchTerm := jsTrim (jsToLower query)
      (state.1.filter (fun credit => jsIncludes credit.searchableText searchTerm), false)
    else state
  let state :=
    match statusFilter with
    | StatusFilter.all => state
    | StatusFilter.status s => (state.1.filter (fun credit => credit.status == s), false)
  let state :=
    match vintageFilter with
    | VintageFilter.all => state
    | VintageFilter.vintage v => (state.1.filter (fun credit => credit.vintage == v), false)
  let sorted := List.insertionSort (fun a b => sortLe sortBy sortOrder a b = true) state.1
  (sorted, if state.2 then sorted else credits)

/-! ### `use-pagination.ts` -/

/-- Model of `totalPages` from `use-pagination.ts` (lines 43–45):
`Math.max(1, Math.ceil(totalItems / itemsPerPage))`; over naturals with
`itemsPerPage > 0` the ceiling of the division is
`(totalItems + itemsPerPage - 1) / itemsPerPage`. -/
def totalPages (totalItems itemsPerPage : Nat) : Nat :=
  max 1 ((totalItems + itemsPerPage - 1) / itemsPerPage)

/-- Model of `startIndex` from `use-pagination.ts` (lines 47–49). -/
def startIndex (currentPage itemsPerPage : Nat) : Nat :=
  (currentPage - 1) * itemsPerPage

/-- Model of `endIndex` from `use-pagination.ts` (lines 51–53). -/
def endIndex (currentPage itemsPerPage totalItems : Nat) : Nat :=
  min (startIndex currentPage itemsPerPage + itemsPerPage) totalItems

/-- JS `items.slice(s, e)` for `0 ≤ s ≤ e` clamped to the array. -/
def jsSlice {α : Type} (l : List α) (s e : Nat) : List α :=
  (l.drop s).take (e - s)

/-- Model of `getPageItems` from `use-pagination.ts` (lines 99–101):
`items.slice(startIndex, endIndex)`. -/
def getPageItems {α : Type} (items : List α) (currentPage itemsPerPage totalItems : Nat) :
    List α :=
  jsSlice items (startIndex currentPage itemsPerPage)
    (endIndex currentPage itemsPerPage totalItems)

/-- Model of `setCurrentPage` from `use-pagination.ts` (lines 72–75):
`Math.max(1, Math.min(page, totalPages))`. -/
def setCurrentPage (tp : Int) (page : Int) : Int :=
  max 1 (min page tp)

/-- Model of `hasNextPage` (lines 55–57): `currentPage < totalPages`. -/
def hasNextPage (tp cur : Int) : Bool :=
  decide (cur < tp)

/-- Model of `hasPreviousPage` (lines 59–61): `currentPage > 1`. -/
def hasPreviousPage (cur : Int) : Bool :=
  decide (cur > 1)

/-- Model of `nextPage` (lines 78–82): steps forward only when `hasNextPage`. -/
def nextPage (tp cur : Int) : Int :=
  if hasNextPage tp cur then setCurrentPage tp (cur + 1) else cur

/-- Model of `previousPage` (lines 84–88): steps back only when `hasPreviousPage`. -/
def previousPage (tp cur : Int) : Int :=
  if hasPreviousPage cur then setCurrentPage tp (cur - 1) else cur

/-- Model of `goToFirstPage` (lines 90–92). -/
def goToFirstPage (tp : Int) : Int :=
  setCurrentPage tp 1

/-- Model of `goToLastPage` (lines 94–96). -/
def goToLastPage (tp : Int) : Int :=
  setCurrentPage tp tp

/-- A user-visible pagination operation. -/
inductive PageOp where
  | set (p : Int) : PageOp
  | next : PageOp
  | prev : PageOp
  | first : PageOp
  | last : PageOp
deriving DecidableEq, Repr

/-- One pagination operation applied to the current page. -/
def stepPage (tp : Int) (cur : Int) : PageOp → Int
  | PageOp.set p => setCurrentPage tp p
  | PageOp.next => nextPage tp cur
  | PageOp.prev => previousPage tp cur
  | PageOp.first => goToFirstPage tp
  | PageOp.last => goToLastPage tp

/-- A sequence of pagination operations applied in order. -/
def runPageOps (tp : Int) (cur : Int) (ops : List PageOp) : Int :=
  ops.foldl (stepPage tp) cur

/-! ### `types.ts` + `data.ts`: zod validation in `getCredits` -/

/-- JSON values; numbers are modelled as `Rat` (JS numbers excluding the
special values, which is what `z.number()` accepts). -/
inductive Json where
  | null : Json
  | jbool (b : Bool) : Json
  | num (q : Rat) : Json
  | str (s : String) : Json
  | arr (elems : List Json) : Json
  | obj (fields : List (String × Json)) : Json

/-- Property access on a JS object (runtime objects have unique keys). -/
def lookupField (fields : List (String × Json)) (key : String) : Option Json :=
  match fields with
  | [] => none
  | (k, v) :: rest => if k == key then some v else lookupField rest key

/-- What a successful `creditSchema.parse` returns: note the `vintage` field
is validated by `z.number()`, so it carries an arbitrary number. -/
structure ParsedCredit where
  unic_id : String
  project_name : String
  vintage : Rat
  status : Status
deriving DecidableEq

/-- Validation by `z.string()` on one value. -/
def parseZString : Json → Option String
  | Json.str s => some s
  | _ => none

/-- Validation by `z.number()` on one value. -/
def parseZNumber : Json → Option Rat
  | Json.num q => some q
  | _ => none

/-- Validation by `z.enum(["Active", "Retired"])` on one value. -/
def parseZStatus : Json → Option Status
  | Json.str s =>
      if s = "Active" then some Status.Active
      else if s = "Retired" then some Status.Retired
      else none
  | _ => none

/-- Validation by `creditSchema.parse` on one value (`types.ts` lines 4–9): a plain object
whose four fields all validate. -/
def parseCredit : Json → Option ParsedCredit
  | Json.obj fields =>
      match (lookupField fields "unic_id").bind parseZString with
      | none => none
      | some unic_id =>
          match (lookupField fields "project_name").bind parseZString with
          | none => none
          | some project_name =>
              match (lookupField fields "vintage").bind parseZNumber with
              | none => none
              | some vintage =>
                  match (lookupField fields "status").bind parseZStatus with
                  | none => none
                  | some status =>
                      some { unic_id := unic_id, project_name := project_name,
                             vintage := vintage, status := status }
  | _ => none

/-- Element-wise validation of an array body. -/
def parseCreditList : List Json → Option (List ParsedCredit)
  | [] => some []
  | j :: rest =>
      match parseCredit j with
      | none => none
      | some c =>
          match parseCreditList rest with
          | none => none
          | some cs => some (c :: cs)

/-- Validation by `z.array(creditSchema).parse(data)` (`data.ts` line 54). -/
def parseCreditArray : Json → Option (List ParsedCredit)
  | Json.arr elems => parseCreditList elems
  | _ => none

/-- The validation part of `getCredits` (`data.ts` lines 53–69): parse the
data, then reject an empty catalogue; a zod failure surfaces as the
`Invalid data format` error. -/
def getCredits (data : Json) : Except String (List ParsedCredit) :=
  match parseCreditArray data with
  | none => Except.error "Invalid data format"
  | some credits =>
      if credits.length = 0 then Except.error "No credits data found"
      else Except.ok credits

/-- Model of `generateCertificateHTML` from `download-certificate.tsx` (lines 77–206).
The wall-clock readings made during generation are passed explicitly:
`formattedDate` is the locale rendering of the ISO timestamp taken at entry,
and `nowMillis` is the `Date.now()` used in the certificate id. -/
def generateCertificateHTML (credit : Credit) (formattedDate : String)
    (nowMillis : Int) : String :=
  "
    <div style=\"
      background: white;
      width: 800px;
      min-height: 600px;
      padding: 48px;
      font-family: Georgia, serif;
      color: #1f2937;
    \">
      <!-- Header -->
      <div style=\"text-align: center; margin-bottom: 48px; border-bottom: 2px solid #059669; padding-bottom: 32px;\">
        <div style=\"display: flex; align-items: center; justify-content: center; margin-bottom: 16px;\">
          <div style=\"
            width: 64px;
            height: 64px;
            background-color: #059669;
            border-radius: 50%;
            display: flex;
            align-items: center;
            justify-content: center;
            margin-right: 16px;
          \">
            <svg width=\"40\" height=\"40\" fill=\"white\" viewBox=\"0 0 24 24\">
              <path d=\"M12 2L13.09 8.26L20 9L13.09 9.74L12 16L10.91 9.74L4 9L10.91 8.26L12 2Z\"/>
            </svg>
          </div>
          <div>
            <h1 style=\"font-size: 24px; font-weight: bold; margin: 0;\">Carbon Credits Registry</h1>
            <p style=\"font-size: 12px; color: #6b7280; text-transform: uppercase; letter-spacing: 1px; margin: 0;\">Official Certificate</p>
          </div>
        </div>
        <h2 style=\"font-size: 32px; font-weight: bold; color: #047857; margin: 8px 0;\">Certificate of Retirement</h2>
        <p style=\"font-size: 18px; color: #6b7280; margin: 0;\">This certifies the permanent retirement of carbon credits</p>
      </div>

      <!-- Content -->
      <div style=\"background-color: #ecfdf5; border-left: 4px solid #059669; padding: 24px; margin-bottom: 32px;\">
        <p style=\"font-size: 18px; color: #374151; line-height: 1.6; margin: 0;\">
          This certificate serves as official documentation that the carbon credit(s) listed below 
          have been permanently retired and removed from circulation, representing a verified 
          contribution to global carbon offset efforts.
        </p>
      </div>

      <!-- Credit Details -->
      <div style=\"border: 1px solid #e5e7eb; border-radius: 8px; padding: 24px; margin-bottom: 48px;\">
        <h3 style=\"font-size: 20px; font-weight: 600; margin-bottom: 16px; border-bottom: 1px solid #e5e7eb; padding-bottom: 8px;\">
          Credit Information
        </h3>
        <div style=\"display: grid; grid-template-columns: 1fr 1fr; gap: 24px;\">
          <div>
            <label style=\"display: block; font-size: 12px; font-weight: 500; color: #6b7280; text-transform: uppercase; letter-spacing: 1px; margin-bottom: 4px;\">
              UNIC Identifier
            </label>
            <p style=\"font-size: 18px; color: #1f2937; background-color: #f9fafb; padding: 8px; border-radius: 4px; border: 1px solid #e5e7eb; margin: 0; font-family: \x27Courier New\x27, monospace;\">
              " ++
  credit.unic_id ++
  "
            </p>
          </div>
          <div>
            <label style=\"display: block; font-size: 12px; font-weight: 500; color: #6b7280; text-transform: uppercase; letter-spacing: 1px; margin-bottom: 4px;\">
              Status
            </label>
            <p style=\"
              font-size: 18px; 
              margin: 0;
              background-color: " ++
  (if credit.status == Status.Active then "#ecfdf5" else "#f9fafb") ++
  ";
              color: " ++
  (if credit.status == Status.Active then "#047857" else "#374151") ++
  ";
              border: 1px solid " ++
  (if credit.status == Status.Active then "#a7f3d0" else "#e5e7eb") ++
  ";
              padding: 8px;
              border-radius: 4px;
            \">
              " ++
  statusString credit.status ++
  "
            </p>
          </div>
          <div style=\"grid-column: 1 / -1;\">
            <label style=\"display: block; font-size: 12px; font-weight: 500; color: #6b7280; text-transform: uppercase; letter-spacing: 1px; margin-bottom: 4px;\">
              Project Name
            </label>
            <p style=\"font-size: 18px; color: #1f2937; background-color: #f9fafb; padding: 8px; border-radius: 4px; border: 1px solid #e5e7eb; margin: 0;\">
              " ++
  credit.project_name ++
  "
            </p>
          </div>
          <div>
            <label style=\"display: block; font-size: 12px; font-weight: 500; color: #6b7280; text-transform: uppercase; letter-spacing: 1px; margin-bottom: 4px;\">
              Vintage Year
            </label>
            <p style=\"font-size: 18px; color: #1f2937; background-color: #f9fafb; padding: 8px; border-radius: 4px; border: 1px solid #e5e7eb; margin: 0;\">
              " ++
  toString credit.vintage ++
  "
            </p>
          </div>
          <div>
            <label style=\"display: block; font-size: 12px; font-weight: 500; color: #6b7280; text-transform: uppercase; letter-spacing: 1px; margin-bottom: 4px;\">
              Certificate Issued
            </label>
            <p style=\"font-size: 18px; color: #1f2937; background-color: #f9fafb; padding: 8px; border-radius: 4px; border: 1px solid #e5e7eb; margin: 0;\">
              " ++
  formattedDate ++
  "
            </p>
          </div>
        </div>
      </div>

      <!-- Footer -->
      <div style=\"border-top: 2px solid #059669; padding-top: 24px; text-align: center;\">
        <p style=\"font-size: 14px; color: #6b7280; margin-bottom: 8px;\">
          This certificate is digitally generated and serves as proof of carbon credit retirement.
        </p>
        <p style=\"font-size: 12px; color: #9ca3af; font-family: \x27Courier New\x27, monospace; margin-bottom: 16px;\">
          Certificate ID: CERT-" ++
  credit.unic_id ++
  "-" ++
  toString nowMillis ++
  "
        </p>
        <div style=\"display: flex; align-items: center; justify-content: center; font-size: 12px; color: #9ca3af;\">
          <svg width=\"16\" height=\"16\" fill=\"currentColor\" viewBox=\"0 0 24 24\" style=\"margin-right: 4px;\">
            <path d=\"M12 1L3 5V11C3 16.55 6.84 21.74 12 23C17.16 21.74 21 16.55 21 11V5L12 1Z\"/>
          </svg>
          Verified and authenticated by Carbon Credits Registry
        </div>
      </div>
    </div>
  "

/-! ### Concrete inputs used to exercise the theorems -/

/-- A syntactically valid credit record as a JSON value. -/
def okRecordJson : Json :=
  Json.obj [("unic_id", Json.str "CC-001"), ("project_name", Json.str "Solar Farm"),
    ("vintage", Json.num 2020), ("status", Json.str "Active")]

/-- What `okRecordJson` validates to. -/
def okParsedCredit : ParsedCredit :=
  { unic_id := "CC-001", project_name := "Solar Farm", vintage := 2020,
    status := Status.Active }

/-- A record whose `vintage` is the non-integer number `2020.5`. -/
def halfVintageRecordJson : Json :=
  Json.obj [("unic_id", Json.str "CC-002"), ("project_name", Json.str "Wind Farm"),
    ("vintage", Json.num (mkRat 4041 2)), ("status", Json.str "Retired")]

/-- What `halfVintageRecordJson` validates to. -/
def halfVintageParsedCredit : ParsedCredit :=
  { unic_id := "CC-002", project_name := "Wind Farm", vintage := mkRat 4041 2,
    status := Status.Retired }

/-- A concrete credit used by witnesses. -/
def alphaCredit : Credit :=
  { unic_id := "UNIC-A", project_name := "Alpha", vintage := 2021,
    status := Status.Active }

/-- A second concrete credit used by witnesses. -/
def betaCredit : Credit :=
  { unic_id := "UNIC-B", project_name := "Beta", vintage := 2019,
    status := Status.Retired }

/-- The record `alphaCredit` with its search metadata. -/
def alphaCreditMeta : CreditWithMetadata :=
  { unic_id := "UNIC-A", project_name := "Alpha", vintage := 2021,
    status := Status.Active, searchableText := "alpha unic-a 2021 active",
    displayName := "Alpha", vintageDisplay := "2021" }

/-- The record `betaCredit` with its search metadata. -/
def betaCreditMeta : CreditWithMetadata :=
  { unic_id := "UNIC-B", project_name := "Beta", vintage := 2019,
    status := Status.Retired, searchableText := "beta unic-b 2019 retired",
    displayName := "Beta", vintageDisplay := "2019" }

/-! ### The filter conditions of the search pipeline, as predicates -/

/-- A credit passes the text search: when the trimmed query is non-empty, the
lowercased trimmed query occurs contiguously in its `searchableText`. -/
def matchesQuery (query : String) (c : CreditWithMetadata) : Prop :=
  jsTrim query ≠ "" → (jsTrim (jsToLower query)).data <:+: c.searchableText.data

/-- A credit passes the status filter: a non-`all` filter forces its status. -/
def matchesStatusFilter (sf : StatusFilter) (c : CreditWithMetadata) : Prop :=
  ∀ s, sf = StatusFilter.status s → c.status = s

/-- A credit passes the vintage filter: a non-`all` filter forces its vintage. -/
def matchesVintageFilter (vf : VintageFilter) (c : CreditWithMetadata) : Prop :=
  ∀ v, vf = VintageFilter.vintage v → c.vintage = v

/-! ## Theorems -/

/-! ### Order facts about the comparator primitives -/

lemma charsLt_irrefl (l : List Char) : charsLt l l = false := by
  induction l with
  | nil => rfl
  | cons a as ih => simp [charsLt, ih]

lemma charsLt_trans :
    ∀ (a b c : List Char), charsLt a b = true → charsLt b c = true → charsLt a c = true := by
  intro a
  induction a with
  | nil =>
      intro b c h1 h2
      cases b with
      | nil => simp [charsLt] at h1
      | cons y ys =>
          cases c with
          | nil => simp [charsLt] at h2
          | cons z zs => simp [charsLt]
  | cons x xs ih =>
      intro b c h1 h2
      cases b with
      | nil => simp [charsLt] at h1
      | cons y ys =>
          cases c with
          | nil => simp [charsLt] at h2
          | cons z zs =>
              simp only [charsLt] at h1 h2 ⊢
              rcases Nat.lt_trichotomy x.toNat y.toNat with hxy | hxy | hxy
              · rcases Nat.lt_trichotomy y.toNat z.toNat with hyz | hyz | hyz
                · have hxz : x.toNat < z.toNat := Nat.lt_trans hxy hyz
                  simp [hxz]
                · have hxz : x.toNat < z.toNat := by omega
                  simp [hxz]
                · rw [if_neg (by omega), if_pos hyz] at h2
                  exact absurd h2 (by simp)
              · rcases Nat.lt_trichotomy y.toNat z.toNat with hyz | hyz | hyz
                · have hxz : x.toNat < z.toNat := by omega
                  simp [hxz]
                · rw [if_neg (by omega), if_neg (by omega)] at h1 h2 ⊢
                  exact ih ys zs h1 h2
                · rw [if_neg (by omega), if_pos hyz] at h2
                  exact absurd h2 (by simp)
              · rw [if_neg (by omega), if_pos hxy] at h1
                exact absurd h1 (by simp)

lemma charsLt_trichotomy :
    ∀ (a b : List Char), charsLt a b = true ∨ a = b ∨ charsLt b a = true := by
  intro a
  induction a with
  | nil =>
      intro b
      cases b with
      | nil => exact Or.inr (Or.inl rfl)
      | cons y ys => exact Or.inl (by simp [charsLt])
  | cons x xs ih =>
      intro b
      cases b with
      | nil => exact Or.inr (Or.inr (by simp [charsLt]))
      | cons y ys =>
          rcases Nat.lt_trichotomy x.toNat y.toNat with hlt | heq | hgt
          · exact Or.inl (by simp [charsLt, hlt])
          · have hxy : x = y := by
              simpa [Char.toNat, Char.ext_iff, UInt32.ext_iff] using heq
            subst hxy
            rcases ih ys with h | h | h
            · exact Or.inl (by simp [charsLt, h])
            · exact Or.inr (Or.inl (by rw [h]))
            · exact Or.inr (Or.inr (by simp [charsLt, h]))
          · exact Or.inr (Or.inr (by simp [charsLt, hgt]))

lemma keyLt_trans (sb : SortBy) {a b c : CreditWithMetadata}
    (h1 : keyLt sb a b = true) (h2 : keyLt sb b c = true) : keyLt sb a c = true := by
  cases sb with
  | by_project_name => exact charsLt_trans _ _ _ h1 h2
  | by_vintage =>
      simp only [keyLt, decide_eq_true_eq] at h1 h2 ⊢
      omega
  | by_status => exact charsLt_trans _ _ _ h1 h2

lemma keyLt_irrefl (sb : SortBy) (a : CreditWithMetadata) : keyLt sb a a = false := by
  cases sb with
  | by_project_name => exact charsLt_irrefl _
  | by_vintage => simp [keyLt]
  | by_status => exact charsLt_irrefl _

lemma keyLt_negtrans (sb : SortBy) {a b c : CreditWithMetadata}
    (h : keyLt sb a c = true) : keyLt sb a b = true ∨ keyLt sb b c = true := by
  cases sb with
  | by_project_name =>
      rcases charsLt_trichotomy (jsToLower a.project_name).data
          (jsToLower b.project_name).data with h1 | h1 | h1
      · exact Or.inl h1
      · refine Or.inr ?_
        simpa only [keyLt, jsStrLt, h1] using h
      · exact Or.inr (charsLt_trans _ _ _ h1 h)
  | by_vintage =>
      simp only [keyLt, decide_eq_true_eq] at h ⊢
      omega
  | by_status =>
      rcases charsLt_trichotomy (statusString a.status).data (statusString b.status).data with
        h1 | h1 | h1
      · exact Or.inl h1
      · refine Or.inr ?_
        simpa only [keyLt, jsStrLt, h1] using h
      · exact Or.inr (charsLt_trans _ _ _ h1 h)

lemma sortLe_total (sb : SortBy) (so : SortOrder) (a b : CreditWithMetadata) :
    (sortLe sb so a b || sortLe sb so b a) = true := by
  cases so with
  | asc =>
      simp only [sortLe, Bool.or_eq_true, Bool.not_eq_true']
      by_contra hcon
      push_neg at hcon
      obtain ⟨h1, h2⟩ := hcon
      have h1t : keyLt sb b a = true := by
        cases hv : keyLt sb b a
        · exact absurd hv h1
        · rfl
      have h2t : keyLt sb a b = true := by
        cases hv : keyLt sb a b
        · exact absurd hv h2
        · rfl
      have := keyLt_trans sb h1t h2t
      rw [keyLt_irrefl] at this
      exact absurd this (by simp)
  | desc =>
      simp only [sortLe, Bool.or_eq_true, Bool.not_eq_true']
      by_contra hcon
      push_neg at hcon
      obtain ⟨h1, h2⟩ := hcon
      have h1t : keyLt sb a b = true := by
        cases hv : keyLt sb a b
        · exact absurd hv h1
        · rfl
      have h2t : keyLt sb b a = true := by
        cases hv : keyLt sb b a
        · exact absurd hv h2
        · rfl
      have := keyLt_trans sb h1t h2t
      rw [keyLt_irrefl] at this
      exact absurd this (by simp)

lemma sortLe_trans (sb : SortBy) (so : SortOrder) (a b c : CreditWithMetadata)
    (h1 : sortLe sb so a b = true) (h2 : sortLe sb so b c = true) :
    sortLe sb so a c = true := by
  cases so with
  | asc =>
      simp only [sortLe, Bool.not_eq_true'] at h1 h2 ⊢
      by_contra hcon
      have hca : keyLt sb c a = true := by
        cases hv : keyLt sb c a
        · exact absurd hv hcon
        · rfl
      rcases keyLt_negtrans sb (b := b) hca with h | h
      · rw [h] at h2; exact absurd h2 (by simp)
      · rw [h] at h1; exact absurd h1 (by simp)
  | desc =>
      simp only [sortLe, Bool.not_eq_true'] at h1 h2 ⊢
      by_contra hcon
      have hac : keyLt sb a c = true := by
        cases hv : keyLt sb a c
        · exact absurd hv hcon
        · rfl
      rcases keyLt_negtrans sb (b := b) hac with h | h
      · rw [h] at h1; exact absurd h1 (by simp)
      · rw [h] at h2; exact absurd h2 (by simp)

/-! ### Substring search agrees with contiguous containment -/

lemma charsPrefixOf_iff : ∀ (n h : List Char), charsPrefixOf n h = true ↔ n <+: h := by
  intro n
  induction n with
  | nil => intro h; simp [charsPrefixOf]
  | cons a as ih =>
      intro h
      cases h with
      | nil => simp [charsPrefixOf]
      | cons b bs =>
          simp [charsPrefixOf, List.cons_prefix_cons, ih bs, And.comm]

lemma charsIncludes_iff : ∀ (h n : List Char), charsIncludes h n = true ↔ n <:+: h := by
  intro h
  induction h with
  | nil =>
      intro n
      cases n with
      | nil => simp [charsIncludes, charsPrefixOf]
      | cons a as => simp [charsIncludes, charsPrefixOf]
  | cons y ys ih =>
      intro n
      simp [charsIncludes, List.infix_cons_iff, charsPrefixOf_iff, ih]

lemma jsIncludes_iff (s t : String) : jsIncludes s t = true ↔ t.data <:+: s.data :=
  charsIncludes_iff s.data t.data

/-! ### C3: determinism of the filtered view -/

/-- C3: the filtered output is a deterministic function of the input state:
two calls of `searchAndFilterCredits` on equal credit lists, equal queries,
equal status filters, equal vintage filters, equal sort keys and equal sort
orders return equal lists. -/
theorem searchAndFilterCredits_deterministic
    (credits₁ credits₂ : List CreditWithMetadata) (query₁ query₂ : String)
    (sf₁ sf₂ : StatusFilter) (vf₁ vf₂ : VintageFilter)
    (sb₁ sb₂ : SortBy) (so₁ so₂ : SortOrder)
    (hc : credits₁ = credits₂) (hq : query₁ = query₂) (hs : sf₁ = sf₂)
    (hv : vf₁ = vf₂) (hb : sb₁ = sb₂) (ho : so₁ = so₂) :
    searchAndFilterCredits credits₁ query₁ sf₁ vf₁ sb₁ so₁ =
      searchAndFilterCredits credits₂ query₂ sf₂ vf₂ sb₂ so₂ := by
  subst hc
  subst hq
  subst hs
  subst hv
  subst hb
  subst ho
  rfl

/-- Witness for C3 at a concrete input state. -/
theorem searchAndFilterCredits_deterministic_witness :
    searchAndFilterCredits [alphaCreditMeta, betaCreditMeta] "a" StatusFilter.all
        VintageFilter.all SortBy.by_project_name SortOrder.asc =
      searchAndFilterCredits [alphaCreditMeta, betaCreditMeta] "a" StatusFilter.all
        VintageFilter.all SortBy.by_project_name SortOrder.asc :=
  searchAndFilterCredits_deterministic _ _ _ _ _ _ _ _ _ _ _ _
    rfl rfl rfl rfl rfl rfl

/-! ### C6: the search metadata transformation -/

/-- C6: `transformCreditsWithMetadata` keeps length and order, copies the four
credit fields unchanged, and sets `searchableText` to the lowercase of the
four fields joined by single spaces (vintage as its decimal string). -/
theorem transformCreditsWithMetadata_spec (credits : List Credit) :
    (transformCreditsWithMetadata credits).length = credits.length ∧
    ∀ (i : Nat) (c : Credit), credits[i]? = some c →
      ∃ m : CreditWithMetadata,
        (transformCreditsWithMetadata credits)[i]? = some m ∧
        m.searchableText =
          jsToLower (String.intercalate " "
            [c.project_name, c.unic_id, toString c.vintage,
              statusString c.status]) ∧
        m.unic_id = c.unic_id ∧ m.project_name = c.project_name ∧
        m.vintage = c.vintage ∧ m.status = c.status := by
  constructor
  · simp [transformCreditsWithMetadata]
  · intro i c hc
    refine ⟨⟨c.unic_id, c.project_name, c.vintage, c.status,
        jsToLower (c.project_name ++ " " ++ c.unic_id ++ " " ++
          toString c.vintage ++ " " ++ statusString c.status),
        c.project_name, toString c.vintage⟩, ?_, ?_, rfl, rfl, rfl, rfl⟩
    · simp [transformCreditsWithMetadata, hc]
    · simp [String.intercalate, String.intercalate.go, String.append_assoc]

/-- Witness for C6 on a concrete two-credit list. -/
theorem transformCreditsWithMetadata_witness :
    [alphaCredit, betaCredit][0]? = some alphaCredit ∧
    ∃ m : CreditWithMetadata,
      (transformCreditsWithMetadata [alphaCredit, betaCredit])[0]? = some m ∧
      m.searchableText =
        jsToLower (String.intercalate " "
          [alphaCredit.project_name, alphaCredit.unic_id,
            toString alphaCredit.vintage, statusString alphaCredit.status]) ∧
      m.unic_id = alphaCredit.unic_id ∧ m.project_name = alphaCredit.project_name ∧
      m.vintage = alphaCredit.vintage ∧ m.status = alphaCredit.status :=
  ⟨rfl, (transformCreditsWithMetadata_spec [alphaCredit, betaCredit]).2 0 alphaCredit rfl⟩

/-! ### C9: the catalogue returned by getCredits is never empty -/

/-- C9: whenever `getCredits` succeeds, the returned list is non-empty, and a
validated but empty array fails with the `No credits data found` error. -/
theorem getCredits_nonempty :
    (∀ (data : Json) (l : List ParsedCredit),
        getCredits data = Except.ok l → l ≠ []) ∧
    getCredits (Json.arr []) = Except.error "No credits data found" := by
  constructor
  · intro data l h
    cases hp : parseCreditArray data with
    | none => simp [getCredits, hp] at h
    | some cs =>
        simp only [getCredits, hp] at h
        by_cases hz : cs.length = 0
        · simp [hz] at h
        · rw [if_neg hz] at h
          have hcl : cs = l := by
            simpa using h
          subst hcl
          intro hnil
          exact hz (by simp [hnil])
  · rfl

/-- Witness for C9: a concrete one-record catalogue resolves non-empty. -/
theorem getCredits_nonempty_witness :
    getCredits (Json.arr [okRecordJson]) = Except.ok [okParsedCredit] ∧
    [okParsedCredit] ≠ [] :=
  ⟨rfl, getCredits_nonempty.1 (Json.arr [okRecordJson]) [okParsedCredit] rfl⟩

/-! ### C7: dashboard statistics -/

lemma status_filter_partition (credits : List Credit) :
    (credits.filter (fun c => c.status == Status.Active)).length +
      (credits.filter (fun c => c.status == Status.Retired)).length =
    credits.length := by
  induction credits with
  | nil => rfl
  | cons c cs ih =>
      cases hs : c.status <;> simp [List.filter_cons, hs] <;> omega

lemma setDedupAux_mem : ∀ (l seen : List Int) (v : Int),
    v ∈ setDedupAux seen l ↔ v ∈ l ∧ v ∉ seen := by
  intro l
  induction l with
  | nil => simp [setDedupAux]
  | cons x xs ih =>
      intro seen v
      by_cases hx : x ∈ seen
      · rw [setDedupAux, if_pos hx, ih]
        constructor
        · rintro ⟨h1, h2⟩
          exact ⟨List.mem_cons_of_mem _ h1, h2⟩
        · rintro ⟨h1, h2⟩
          rcases List.mem_cons.mp h1 with rfl | h1
          · exact absurd hx h2
          · exact ⟨h1, h2⟩
      · rw [setDedupAux, if_neg hx]
        rw [List.mem_cons, ih]
        constructor
        · rintro (rfl | ⟨h1, h2⟩)
          · exact ⟨List.mem_cons_self _ _, hx⟩
          · refine ⟨List.mem_cons_of_mem _ h1, fun hs => h2 (List.mem_cons_of_mem _ hs)⟩
        · rintro ⟨h1, h2⟩
          rcases List.mem_cons.mp h1 with rfl | h1
          · exact Or.inl rfl
          · by_cases hvx : v = x
            · exact Or.inl hvx
            · exact Or.inr ⟨h1, fun hs => by
                rcases List.mem_cons.mp hs with h | h
                · exact hvx h
                · exact h2 h⟩

lemma setDedupAux_nodup : ∀ (l seen : List Int), (setDedupAux seen l).Nodup := by
  intro l
  induction l with
  | nil => intro seen; simp [setDedupAux]
  | cons x xs ih =>
      intro seen
      by_cases hx : x ∈ seen
      · rw [setDedupAux, if_pos hx]
        exact ih seen
      · rw [setDedupAux, if_neg hx]
        rw [List.nodup_cons]
        refine ⟨?_, ih (x :: seen)⟩
        intro hmem
        have := (setDedupAux_mem xs (x :: seen) x).mp hmem
        simp at this

lemma setDedup_mem (l : List Int) (v : Int) : v ∈ setDedup l ↔ v ∈ l := by
  simp [setDedup, setDedupAux_mem]

lemma setDedup_nodup (l : List Int) : (setDedup l).Nodup :=
  setDedupAux_nodup l []

lemma mem_insertionSort {α : Type} (r : α → α → Prop) [DecidableRel r]
    (l : List α) (a : α) : a ∈ List.insertionSort r l ↔ a ∈ l :=
  (List.perm_insertionSort r l).mem_iff

lemma foldl_min_bounds (vs : List Int) :
    ∀ v : Int, vs.foldl min v ≤ v ∧ ∀ x ∈ vs, vs.foldl min v ≤ x := by
  induction vs with
  | nil => simp
  | cons a as ih =>
      intro v
      have h := ih (min v a)
      constructor
      · calc as.foldl min (min v a) ≤ min v a := h.1
          _ ≤ v := min_le_left _ _
      · intro x hx
        rcases List.mem_cons.mp hx with rfl | hx
        · calc as.foldl min (min v x) ≤ min v x := h.1
            _ ≤ x := min_le_right _ _
        · exact h.2 x hx

lemma foldl_min_mem (vs : List Int) :
    ∀ v : Int, vs.foldl min v = v ∨ vs.foldl min v ∈ vs := by
  induction vs with
  | nil => simp
  | cons a as ih =>
      intro v
      rcases ih (min v a) with h | h
      · simp only [List.foldl_cons, h]
        rcases min_choice v a with hc | hc
        · exact Or.inl hc
        · exact Or.inr (by simp [hc])
      · exact Or.inr (List.mem_cons_of_mem _ h)

lemma foldl_max_bounds (vs : List Int) :
    ∀ v : Int, v ≤ vs.foldl max v ∧ ∀ x ∈ vs, x ≤ vs.foldl max v := by
  induction vs with
  | nil => simp
  | cons a as ih =>
      intro v
      have h := ih (max v a)
      constructor
      · calc v ≤ max v a := le_max_left _ _
          _ ≤ as.foldl max (max v a) := h.1
      · intro x hx
        rcases List.mem_cons.mp hx with rfl | hx
        · calc x ≤ max v x := le_max_right _ _
            _ ≤ as.foldl max (max v x) := h.1
        · exact h.2 x hx

lemma foldl_max_mem (vs : List Int) :
    ∀ v : Int, vs.foldl max v = v ∨ vs.foldl max v ∈ vs := by
  induction vs with
  | nil => simp
  | cons a as ih =>
      intro v
      rcases ih (max v a) with h | h
      · simp only [List.foldl_cons, h]
        rcases max_choice v a with hc | hc
        · exact Or.inl hc
        · exact Or.inr (by simp [hc])
      · exact Or.inr (List.mem_cons_of_mem _ h)

/-- C7: `calculateDashboardStats` counts the list, the two statuses partition
it, `availableVintages` is the duplicate-free strictly-descending list of
exactly the occurring vintages, and `vintageRange` is the minimum and maximum
occurring vintage (or zeroes on the empty list). -/
theorem calculateDashboardStats_spec (credits : List Credit) :
    (calculateDashboardStats credits).totalCredits = credits.length ∧
    (calculateDashboardStats credits).activeCredits +
        (calculateDashboardStats credits).retiredCredits =
      (calculateDashboardStats credits).totalCredits ∧
    (calculateDashboardStats credits).availableVintages.Nodup ∧
    List.Pairwise (fun a b : Int => b < a)
      (calculateDashboardStats credits).availableVintages ∧
    (∀ v : Int, v ∈ (calculateDashboardStats credits).availableVintages ↔
        ∃ c ∈ credits, c.vintage = v) ∧
    (credits = [] →
      (calculateDashboardStats credits).vintageRange = { min := 0, max := 0 }) ∧
    (∀ c ∈ credits,
      (calculateDashboardStats credits).vintageRange.min ≤ c.vintage ∧
        c.vintage ≤ (calculateDashboardStats credits).vintageRange.max) ∧
    (credits ≠ [] →
      (∃ c ∈ credits,
        c.vintage = (calculateDashboardStats credits).vintageRange.min) ∧
      (∃ c ∈ credits,
        c.vintage = (calculateDashboardStats credits).vintageRange.max)) := by
  haveI instTransGe : IsTrans Int (fun a b : Int => b ≤ a) :=
    ⟨fun _ _ _ hab hbc => le_trans hbc hab⟩
  haveI instTotalGe : IsTotal Int (fun a b : Int => b ≤ a) :=
    ⟨fun a b => le_total b a⟩
  have hsorted := List.sorted_insertionSort (fun a b : Int => b ≤ a)
    (setDedup (credits.map (fun c => c.vintage)))
  have hnodup : (List.insertionSort (fun a b : Int => b ≤ a)
      (setDedup (credits.map (fun c => c.vintage)))).Nodup :=
    (List.perm_insertionSort _ _).symm.nodup (setDedup_nodup _)
  refine ⟨rfl, ?_, ?_, ?_, ?_, ?_, ?_, ?_⟩
  · simpa [calculateDashboardStats] using status_filter_partition credits
  · simpa [calculateDashboardStats] using hnodup
  · have hand := List.Pairwise.and hsorted hnodup
    have hlt : List.Pairwise (fun a b : Int => b < a)
        (List.insertionSort (fun a b : Int => b ≤ a)
          (setDedup (credits.map (fun c => c.vintage)))) := by
      refine hand.imp ?_
      intro a b hab
      obtain ⟨h1, h2⟩ := hab
      exact lt_of_le_of_ne h1 (Ne.symm h2)
    simpa [calculateDashboardStats] using hlt
  · intro v
    simp only [calculateDashboardStats]
    rw [mem_insertionSort, setDedup_mem, List.mem_map]
  · intro h
    subst h
    rfl
  · intro c hc
    cases credits with
    | nil => simp at hc
    | cons c0 cs =>
        simp only [calculateDashboardStats, List.map_cons]
        rcases List.mem_cons.mp hc with rfl | hc
        · exact ⟨(foldl_min_bounds _ _).1, (foldl_max_bounds _ _).1⟩
        · refine ⟨(foldl_min_bounds _ _).2 _ ?_, (foldl_max_bounds _ _).2 _ ?_⟩
          · exact List.mem_map.mpr ⟨c, hc, rfl⟩
          · exact List.mem_map.mpr ⟨c, hc, rfl⟩
  · intro hne
    cases credits with
    | nil => exact absurd rfl hne
    | cons c0 cs =>
        simp only [calculateDashboardStats, List.map_cons]
        constructor
        · rcases foldl_min_mem (cs.map (fun c => c.vintage)) c0.vintage with h | h
          · exact ⟨c0, List.mem_cons_self _ _, h.symm⟩
          · rcases List.mem_map.mp h with ⟨c, hc, hv⟩
            exact ⟨c, List.mem_cons_of_mem _ hc, hv⟩
        · rcases foldl_max_mem (cs.map (fun c => c.vintage)) c0.vintage with h | h
          · exact ⟨c0, List.mem_cons_self _ _, h.symm⟩
          · rcases List.mem_map.mp h with ⟨c, hc, hv⟩
            exact ⟨c, List.mem_cons_of_mem _ hc, hv⟩

/-! ### C4: slice-based pagination partitions the list -/

lemma le_totalPages_mul (ti ipp : Nat) (h : 0 < ipp) :
    ti ≤ totalPages ti ipp * ipp := by
  rcases Nat.eq_zero_or_pos ti with h0 | h0
  · simp [h0]
  · have hq : ti ≤ ((ti + ipp - 1) / ipp) * ipp := by
      by_contra hcon
      push_neg at hcon
      have h1 : ((ti + ipp - 1) / ipp) * ipp + ipp ≤ ti + ipp - 1 := by
        generalize ((ti + ipp - 1) / ipp) * ipp = m at hcon ⊢
        omega
      have h2 : ((ti + ipp - 1) / ipp) + 1 ≤ (ti + ipp - 1) / ipp := by
        rw [Nat.le_div_iff_mul_le h]
        calc ((ti + ipp - 1) / ipp + 1) * ipp
            = ((ti + ipp - 1) / ipp) * ipp + ipp := by ring
          _ ≤ ti + ipp - 1 := h1
      omega
    calc ti ≤ ((ti + ipp - 1) / ipp) * ipp := hq
      _ ≤ max 1 ((ti + ipp - 1) / ipp) * ipp :=
          Nat.mul_le_mul_right _ (le_max_right _ _)

lemma flatten_chunks {α : Type} (ipp : Nat) :
    ∀ (n : Nat) (l : List α), l.length ≤ n * ipp →
      ((List.range n).map (fun i => (l.drop (i * ipp)).take ipp)).flatten = l := by
  intro n
  induction n with
  | zero =>
      intro l hl
      have hnil : l = [] := List.eq_nil_of_length_eq_zero (by omega)
      simp [hnil]
  | succ n ih =>
      intro l hl
      rw [List.range_succ_eq_map]
      simp only [List.map_cons, List.map_map, List.flatten_cons, Nat.zero_mul,
        List.drop_zero]
      have hmap : (List.range n).map
            ((fun i => (l.drop (i * ipp)).take ipp) ∘ Nat.succ) =
          (List.range n).map (fun i => ((l.drop ipp).drop (i * ipp)).take ipp) := by
        refine List.map_congr_left ?_
        intro i _
        simp only [Function.comp]
        rw [List.drop_drop]
        congr 2
        rw [Nat.succ_mul]
        omega
      rw [hmap]
      have hlen : (l.drop ipp).length ≤ n * ipp := by
        rw [List.length_drop]
        have hl2 : l.length ≤ n * ipp + ipp := by
          rw [Nat.succ_mul] at hl
          exact hl
        generalize n * ipp = m at hl2 ⊢
        omega
      rw [ih (l.drop ipp) hlen, List.take_append_drop]

lemma getPageItems_eq_chunk {α : Type} (items : List α) (ipp i : Nat) :
    getPageItems items (i + 1) ipp items.length =
      (items.drop (i * ipp)).take ipp := by
  simp only [getPageItems, jsSlice, startIndex, endIndex, Nat.add_sub_cancel]
  rw [List.take_eq_take]
  rw [List.length_drop]
  generalize i * ipp = s
  generalize items.length = L
  omega

/-- C4: `totalPages` is `max 1 ⌈totalItems / itemsPerPage⌉`; `getPageItems` at
a page `p` in range is exactly the slice from `(p-1)·itemsPerPage` up to
`min(p·itemsPerPage, totalItems)`; every page holds at most `itemsPerPage`
items; and the pages `1 .. totalPages` concatenate back to the whole list. -/
theorem usePagination_partition {α : Type} (items : List α) (itemsPerPage : Nat)
    (h : 0 < itemsPerPage) :
    totalPages items.length itemsPerPage =
      max 1 ((items.length + itemsPerPage - 1) / itemsPerPage) ∧
    (∀ p : Nat, 1 ≤ p → p ≤ totalPages items.length itemsPerPage →
      getPageItems items p itemsPerPage items.length =
        (items.drop ((p - 1) * itemsPerPage)).take
          (min (p * itemsPerPage) items.length - (p - 1) * itemsPerPage)) ∧
    (∀ p : Nat,
      (getPageItems items p itemsPerPage items.length).length ≤ itemsPerPage) ∧
    ((List.range (totalPages items.length itemsPerPage)).map
        (fun i => getPageItems items (i + 1) itemsPerPage items.length)).flatten =
      items := by
  refine ⟨rfl, ?_, ?_, ?_⟩
  · intro p hp _
    obtain ⟨q, rfl⟩ : ∃ q, p = q + 1 := ⟨p - 1, by omega⟩
    simp only [getPageItems, jsSlice, startIndex, endIndex, Nat.add_sub_cancel]
    congr 1
    rw [Nat.succ_mul]
  · intro p
    simp only [getPageItems, jsSlice, startIndex, endIndex, List.length_take,
      List.length_drop]
    generalize (p - 1) * itemsPerPage = s
    generalize items.length = L
    omega
  · have hchunks : (List.range (totalPages items.length itemsPerPage)).map
          (fun i => getPageItems items (i + 1) itemsPerPage items.length) =
        (List.range (totalPages items.length itemsPerPage)).map
          (fun i => (items.drop (i * itemsPerPage)).take itemsPerPage) := by
      refine List.map_congr_left ?_
      intro i _
      exact getPageItems_eq_chunk items itemsPerPage i
    rw [hchunks]
    exact flatten_chunks itemsPerPage _ items (le_totalPages_mul _ _ h)

/-- Witness for C4: three items at two per page concatenate back. -/
theorem usePagination_partition_witness :
    0 < 2 ∧
    ((List.range (totalPages ([10, 20, 30] : List Nat).length 2)).map
        (fun i => getPageItems ([10, 20, 30] : List Nat) (i + 1) 2
          ([10, 20, 30] : List Nat).length)).flatten = [10, 20, 30] :=
  ⟨by decide, (usePagination_partition [10, 20, 30] 2 (by decide)).2.2.2⟩

/-! ### C10: pagination navigation stays in bounds -/

lemma stepPage_in_bounds (tp cur : Int) (htp : 1 ≤ tp) (h1 : 1 ≤ cur)
    (h2 : cur ≤ tp) (op : PageOp) :
    1 ≤ stepPage tp cur op ∧ stepPage tp cur op ≤ tp := by
  cases op <;>
    simp only [stepPage, setCurrentPage, nextPage, previousPage, goToFirstPage,
      goToLastPage, hasNextPage, hasPreviousPage, decide_eq_true_eq] <;>
    (try split_ifs) <;>
    constructor <;>
    omega

/-- C10: starting from page 1, any sequence of `setCurrentPage`, `nextPage`,
`previousPage`, `goToFirstPage` and `goToLastPage` operations leaves the
current page between 1 and `totalPages`. -/
theorem runPageOps_in_bounds (totalItems itemsPerPage : Nat)
    (h : 0 < itemsPerPage) (ops : List PageOp) :
    1 ≤ runPageOps ((totalPages totalItems itemsPerPage : Nat) : Int) 1 ops ∧
    runPageOps ((totalPages totalItems itemsPerPage : Nat) : Int) 1 ops ≤
      ((totalPages totalItems itemsPerPage : Nat) : Int) := by
  have htp : (1 : Int) ≤ ((totalPages totalItems itemsPerPage : Nat) : Int) := by
    have h1 : 1 ≤ totalPages totalItems itemsPerPage := le_max_left _ _
    exact_mod_cast h1
  have hrun : ∀ (os : List PageOp) (cur : Int), 1 ≤ cur →
      cur ≤ ((totalPages totalItems itemsPerPage : Nat) : Int) →
      1 ≤ runPageOps ((totalPages totalItems itemsPerPage : Nat) : Int) cur os ∧
      runPageOps ((totalPages totalItems itemsPerPage : Nat) : Int) cur os ≤
        ((totalPages totalItems itemsPerPage : Nat) : Int) := by
    intro os
    induction os with
    | nil =>
        intro cur h1 h2
        exact ⟨h1, h2⟩
    | cons op rest ih =>
        intro cur h1 h2
        have hs := stepPage_in_bounds _ cur htp h1 h2 op
        exact ih _ hs.1 hs.2
  exact hrun ops 1 le_rfl htp

/-- Witness for C10 at a concrete operation sequence. -/
theorem runPageOps_in_bounds_witness :
    0 < 12 ∧
    1 ≤ runPageOps ((totalPages 25 12 : Nat) : Int) 1
      [PageOp.set 99, PageOp.next, PageOp.prev, PageOp.last, PageOp.set (-5)] ∧
    runPageOps ((totalPages 25 12 : Nat) : Int) 1
      [PageOp.set 99, PageOp.next, PageOp.prev, PageOp.last, PageOp.set (-5)] ≤
      ((totalPages 25 12 : Nat) : Int) :=
  ⟨by decide,
    (runPageOps_in_bounds 25 12 (by decide)
      [PageOp.set 99, PageOp.next, PageOp.prev, PageOp.last, PageOp.set (-5)]).1,
    (runPageOps_in_bounds 25 12 (by decide)
      [PageOp.set 99, PageOp.next, PageOp.prev, PageOp.last, PageOp.set (-5)]).2⟩

/-- Witness for C7 on a concrete two-credit list. -/
theorem calculateDashboardStats_spec_witness :
    ([alphaCredit, betaCredit] : List Credit) ≠ [] ∧
    (∃ c ∈ ([alphaCredit, betaCredit] : List Credit),
      c.vintage = (calculateDashboardStats [alphaCredit, betaCredit]).vintageRange.min) :=
  ⟨by simp,
    ((calculateDashboardStats_spec [alphaCredit, betaCredit]).2.2.2.2.2.2.2
      (by simp)).1⟩

/-! ### C1: membership and ordering of the filtered view -/

/-- C1: a credit is in the output of `searchAndFilterCredits` iff it is in the
input and passes the active query, status and vintage filters; and the output
is ordered by the chosen sort key in the chosen direction. -/
theorem searchAndFilterCredits_membership_sorted
    (credits : List CreditWithMetadata) (query : String) (sf : StatusFilter)
    (vf : VintageFilter) (sb : SortBy) (so : SortOrder) :
    (∀ c, c ∈ searchAndFilterCredits credits query sf vf sb so ↔
        c ∈ credits ∧ matchesQuery query c ∧ matchesStatusFilter sf c ∧
          matchesVintageFilter vf c) ∧
    List.Pairwise (fun a b => sortLe sb so a b = true)
      (searchAndFilterCredits credits query sf vf sb so) := by
  constructor
  · intro c
    by_cases hq : jsTrim query = "" <;> cases sf <;> cases vf <;>
      simp [searchAndFilterCredits, hq, mem_insertionSort, List.mem_filter,
        matchesQuery, matchesStatusFilter, matchesVintageFilter, jsIncludes_iff,
        beq_iff_eq, and_assoc] <;>
      tauto
  · simp only [searchAndFilterCredits]
    haveI : IsTrans CreditWithMetadata (fun a b => sortLe sb so a b = true) :=
      ⟨fun a b c h1 h2 => sortLe_trans sb so a b c h1 h2⟩
    haveI : IsTotal CreditWithMetadata (fun a b => sortLe sb so a b = true) :=
      ⟨fun a b => by
        have h := sortLe_total sb so a b
        simp only [Bool.or_eq_true] at h
        exact h⟩
    exact List.sorted_insertionSort _ _

/-- Witness for C1: the membership characterisation at a concrete credit. -/
theorem searchAndFilterCredits_membership_witness :
    alphaCreditMeta ∈ searchAndFilterCredits [alphaCreditMeta, betaCreditMeta]
        "alpha" StatusFilter.all VintageFilter.all SortBy.by_project_name
        SortOrder.asc ↔
      alphaCreditMeta ∈ [alphaCreditMeta, betaCreditMeta] ∧
        matchesQuery "alpha" alphaCreditMeta ∧
        matchesStatusFilter StatusFilter.all alphaCreditMeta ∧
        matchesVintageFilter VintageFilter.all alphaCreditMeta :=
  (searchAndFilterCredits_membership_sorted [alphaCreditMeta, betaCreditMeta]
    "alpha" StatusFilter.all VintageFilter.all SortBy.by_project_name
    SortOrder.asc).1 alphaCreditMeta

/-! ### C8: the input array is sorted in place when no filter is active -/

/-- C8 counterexample: with a blank query and both filters `all`, the final
`.sort` runs on the input array itself, so after the call the caller's array
is reordered (here: the two credits swap). -/
theorem searchAndFilterCredits_mutates_input :
    (searchAndFilterCreditsWithInput [betaCreditMeta, alphaCreditMeta] ""
        StatusFilter.all VintageFilter.all SortBy.by_project_name
        SortOrder.asc).2 ≠ [betaCreditMeta, alphaCreditMeta] := by
  decide

/-- C8 amended: `searchAndFilterCredits` leaves the input array untouched
whenever any filter is active (the first `.filter` allocates a fresh array),
and otherwise reorders it in place to the sorted output, a permutation of its
previous contents; the returned array always equals the pure result. -/
theorem searchAndFilterCredits_frame
    (credits : List CreditWithMetadata) (query : String) (sf : StatusFilter)
    (vf : VintageFilter) (sb : SortBy) (so : SortOrder) :
    ((jsTrim query ≠ "" ∨ sf ≠ StatusFilter.all ∨ vf ≠ VintageFilter.all) →
      (searchAndFilterCreditsWithInput credits query sf vf sb so).2 = credits) ∧
    (searchAndFilterCreditsWithInput credits query sf vf sb so).2.Perm credits ∧
    (searchAndFilterCreditsWithInput credits query sf vf sb so).1 =
      searchAndFilterCredits credits query sf vf sb so := by
  by_cases hq : jsTrim query = "" <;> cases sf <;> cases vf <;>
    simp [searchAndFilterCreditsWithInput, searchAndFilterCredits, hq,
      List.perm_insertionSort, List.Perm.refl]

/-- Witness for C8 with an active status filter: the input is untouched. -/
theorem searchAndFilterCredits_frame_witness :
    ((jsTrim "" ≠ "" ∨
        StatusFilter.status Status.Active ≠ StatusFilter.all ∨
        VintageFilter.all ≠ VintageFilter.all)) ∧
    (searchAndFilterCreditsWithInput [betaCreditMeta, alphaCreditMeta] ""
        (StatusFilter.status Status.Active) VintageFilter.all
        SortBy.by_project_name SortOrder.asc).2 =
      [betaCreditMeta, alphaCreditMeta] :=
  ⟨Or.inr (Or.inl (by decide)),
    (searchAndFilterCredits_frame [betaCreditMeta, alphaCreditMeta] ""
      (StatusFilter.status Status.Active) VintageFilter.all
      SortBy.by_project_name SortOrder.asc).1
      (Or.inr (Or.inl (by decide)))⟩

/-! ### C2: the shape admitted by the zod validation -/

lemma parseZString_shape {j : Json} {s : String} (h : parseZString j = some s) :
    j = Json.str s := by
  cases j <;> simp_all [parseZString]

lemma parseZNumber_shape {j : Json} {q : Rat} (h : parseZNumber j = some q) :
    j = Json.num q := by
  cases j <;> simp_all [parseZNumber]

lemma parseZStatus_shape {j : Json} {st : Status} (h : parseZStatus j = some st) :
    j = Json.str "Active" ∨ j = Json.str "Retired" := by
  cases j <;> simp only [parseZStatus] at h
  case str a =>
    split_ifs at h with h1 h2
    · exact Or.inl (by rw [h1])
    · exact Or.inr (by rw [h2])
  all_goals simp at h

lemma parseCredit_shape {j : Json} {c : ParsedCredit} (h : parseCredit j = some c) :
    ∃ fields, j = Json.obj fields ∧
      (∃ s, lookupField fields "unic_id" = some (Json.str s)) ∧
      (∃ s, lookupField fields "project_name" = some (Json.str s)) ∧
      (∃ q, lookupField fields "vintage" = some (Json.num q)) ∧
      (lookupField fields "status" = some (Json.str "Active") ∨
        lookupField fields "status" = some (Json.str "Retired")) := by
  cases j <;> simp only [parseCredit] at h
  case obj fields =>
    cases hu : (lookupField fields "unic_id").bind parseZString with
    | none => rw [hu] at h; simp at h
    | some u =>
    rw [hu] at h
    cases hp : (lookupField fields "project_name").bind parseZString with
    | none => rw [hp] at h; simp at h
    | some p =>
    rw [hp] at h
    cases hv : (lookupField fields "vintage").bind parseZNumber with
    | none => rw [hv] at h; simp at h
    | some v =>
    rw [hv] at h
    cases hst : (lookupField fields "status").bind parseZStatus with
    | none => rw [hst] at h; simp at h
    | some st =>
    rw [Option.bind_eq_some] at hu hp hv hst
    obtain ⟨ju, hju, hju2⟩ := hu
    obtain ⟨jp, hjp, hjp2⟩ := hp
    obtain ⟨jv, hjv, hjv2⟩ := hv
    obtain ⟨js, hjs, hjs2⟩ := hst
    refine ⟨fields, rfl, ⟨u, ?_⟩, ⟨p, ?_⟩, ⟨v, ?_⟩, ?_⟩
    · rw [hju, parseZString_shape hju2]
    · rw [hjp, parseZString_shape hjp2]
    · rw [hjv, parseZNumber_shape hjv2]
    · rcases parseZStatus_shape hjs2 with hcase | hcase
      · exact Or.inl (by rw [hjs, hcase])
      · exact Or.inr (by rw [hjs, hcase])
  all_goals simp at h

lemma parseCreditList_shape : ∀ (elems : List Json) (cs : List ParsedCredit),
    parseCreditList elems = some cs →
    elems.length = cs.length ∧ ∀ j ∈ elems, ∃ c, parseCredit j = some c := by
  intro elems
  induction elems with
  | nil =>
      intro cs h
      simp only [parseCreditList, Option.some_inj] at h
      subst h
      simp
  | cons j rest ih =>
      intro cs h
      simp only [parseCreditList] at h
      cases hj : parseCredit j with
      | none => rw [hj] at h; simp at h
      | some c =>
          rw [hj] at h
          cases hr : parseCreditList rest with
          | none => rw [hr] at h; simp at h
          | some cs2 =>
              rw [hr] at h
              simp only [Option.some_inj] at h
              subst h
              obtain ⟨hlen, hall⟩ := ih cs2 hr
              refine ⟨by simp [hlen], ?_⟩
              intro j2 hj2
              rcases List.mem_cons.mp hj2 with rfl | hj2
              · exact ⟨c, hj⟩
              · exact hall j2 hj2

/-- C2 counterexample: a record whose `vintage` is the non-integer `2020.5`
passes validation and is returned by `getCredits` instead of being
rejected (`z.number()` does not require an integer). -/
theorem getCredits_accepts_noninteger_vintage :
    getCredits (Json.arr [halfVintageRecordJson]) =
      Except.ok [halfVintageParsedCredit] ∧
    halfVintageParsedCredit.vintage.den ≠ 1 := by
  constructor
  · rfl
  · decide

/-- C2 amended: every successfully returned catalogue comes from a JSON array
of objects whose `unic_id` and `project_name` are strings, whose `vintage` is
a number (not necessarily an integer), and whose `status` is exactly the
string `Active` or `Retired`; any input violating this shape is rejected. -/
theorem getCredits_shape (data : Json) (l : List ParsedCredit)
    (h : getCredits data = Except.ok l) :
    ∃ elems, data = Json.arr elems ∧ elems.length = l.length ∧
      ∀ j ∈ elems, ∃ fields, j = Json.obj fields ∧
        (∃ s, lookupField fields "unic_id" = some (Json.str s)) ∧
        (∃ s, lookupField fields "project_name" = some (Json.str s)) ∧
        (∃ q, lookupField fields "vintage" = some (Json.num q)) ∧
        (lookupField fields "status" = some (Json.str "Active") ∨
          lookupField fields "status" = some (Json.str "Retired")) := by
  cases data <;> simp only [getCredits, parseCreditArray] at h
  case arr elems =>
    cases hp : parseCreditList elems with
    | none => rw [hp] at h; simp at h
    | some cs =>
        simp only [hp] at h
        by_cases hz : cs.length = 0
        · rw [if_pos hz] at h
          simp at h
        · rw [if_neg hz] at h
          simp only [Except.ok.injEq] at h
          subst h
          obtain ⟨hlen, hall⟩ := parseCreditList_shape elems cs hp
          refine ⟨elems, rfl, hlen, ?_⟩
          intro j hj
          obtain ⟨c, hc⟩ := hall j hj
          exact parseCredit_shape hc
  all_goals simp at h

/-- Witness for C2's amended theorem at a concrete valid catalogue. -/
theorem getCredits_shape_witness :
    getCredits (Json.arr [okRecordJson]) = Except.ok [okParsedCredit] ∧
    ∃ elems, Json.arr [okRecordJson] = Json.arr elems ∧
      elems.length = ([okParsedCredit] : List ParsedCredit).length ∧
      ∀ j ∈ elems, ∃ fields, j = Json.obj fields ∧
        (∃ s, lookupField fields "unic_id" = some (Json.str s)) ∧
        (∃ s, lookupField fields "project_name" = some (Json.str s)) ∧
        (∃ q, lookupField fields "vintage" = some (Json.num q)) ∧
        (lookupField fields "status" = some (Json.str "Active") ∨
          lookupField fields "status" = some (Json.str "Retired")) :=
  ⟨rfl, getCredits_shape (Json.arr [okRecordJson]) [okParsedCredit] rfl⟩

/-! ### C5: the certificate document carries all credit fields -/

lemma data_infix_left {n : List Char} (a b : String) (h : n <:+: a.data) :
    n <:+: (a ++ b).data := by
  rw [String.data_append]
  obtain ⟨s, t, hst⟩ := h
  refine ⟨s, t ++ b.data, ?_⟩
  rw [← hst]
  simp [List.append_assoc]

lemma data_infix_end (a n : String) : n.data <:+: (a ++ n).data :=
  ⟨a.data, [], by simp [String.data_append]⟩


/-- C5: the generated certificate HTML contains the credit's `unic_id`,
`project_name`, `vintage` and `status` together with the generation timestamp
rendering taken at generation time. -/
theorem generateCertificateHTML_contains (credit : Credit)
    (formattedDate : String) (nowMillis : Int) :
    credit.unic_id.data <:+:
      (generateCertificateHTML credit formattedDate nowMillis).data ∧
    credit.project_name.data <:+:
      (generateCertificateHTML credit formattedDate nowMillis).data ∧
    (toString credit.vintage).data <:+:
      (generateCertificateHTML credit formattedDate nowMillis).data ∧
    (statusString credit.status).data <:+:
      (generateCertificateHTML credit formattedDate nowMillis).data ∧
    formattedDate.data <:+:
      (generateCertificateHTML credit formattedDate nowMillis).data := by
  refine ⟨?_, ?_, ?_, ?_, ?_⟩
  · simp only [generateCertificateHTML]
    apply data_infix_left
    apply data_infix_left
    apply data_infix_left
    exact data_infix_end _ _
  · simp only [generateCertificateHTML]
    apply data_infix_left
    apply data_infix_left
    apply data_infix_left
    apply data_infix_left
    apply data_infix_left
    apply data_infix_left
    apply data_infix_left
    apply data_infix_left
    apply data_infix_left
    exact data_infix_end _ _
  · simp only [generateCertificateHTML]
    apply data_infix_left
    apply data_infix_left
    apply data_infix_left
    apply data_infix_left
    apply data_infix_left
    apply data_infix_left
    apply data_infix_left
    exact data_infix_end _ _
  · simp only [generateCertificateHTML]
    apply data_infix_left
    apply data_infix_left
    apply data_infix_left
    apply data_infix_left
    apply data_infix_left
    apply data_infix_left
    apply data_infix_left
    apply data_infix_left
    apply data_infix_left
    apply data_infix_left
    apply data_infix_left
    exact data_infix_end _ _
  · simp only [generateCertificateHTML]
    apply data_infix_left
    apply data_infix_left
    apply data_infix_left
    apply data_infix_left
    apply data_infix_left
    exact data_infix_end _ _

end Dashboard
